import Mathlib

/-!
# ChemParse block-extraction engine: a shallow embedding

The repository snapshot contains the VASP mode configuration
(`chemparse/vasp_regex.json`) and an example notebook
(`examples/gpaw_example.ipynb`) showing the observed block table of a GPAW
document.  The Python engine itself (pattern expander, mode registry,
partitioner) is not part of the snapshot, so those components are modelled
from the specification; the concrete data (the VASP patterns, the observed
GPAW table, the registered mode names) is transcribed from the source files.
-/

namespace ChemParse

/-- Error taxonomy of the engine.  `unknownMode`, `unmatchedRegion` and
`invalidPattern` are the spec's errors; `matchBeforeCursor` models the search
contract (a pattern match starts at or after the cursor), `partitionAssert`
models the partition-invariant assertion performed before returning, and
`outOfFuel` is the scanner's explicit fuel bound (shown unreachable for
sufficient fuel). -/
inductive ParseError where
  | unknownMode (modeName : String)
  | unmatchedRegion (offset : Nat)
  | invalidPattern (subtypeName : String)
  | matchBeforeCursor (subtypeName : String)
  | partitionAssert
  | outOfFuel
deriving DecidableEq

/-- Modelled from the spec: a concrete named pattern.  The compiled pattern is
represented by its matching behaviour: `matcher doc c` returns the span
`(p, e)` (half-open, `p` the start offset, `e` the end offset) of the earliest
match starting at or after offset `c`, or `none` when the pattern does not
match the remaining text. -/
structure PatternSpec where
  pType : String
  subName : String
  matcher : List Char → Nat → Option (Nat × Nat)

/-- Modelled from the spec: a priority-ordered, possibly nested pattern
structure.  Order of `members` encodes match priority. -/
inductive PatternGroup where
  | leaf (s : PatternSpec)
  | group (members : List PatternGroup)

/-- Pre-order, depth-first flattening of a pattern tree: the order in which
the partitioner tries leaf patterns. -/
def flattenGroup : PatternGroup → List PatternSpec
  | .leaf s => [s]
  | .group [] => []
  | .group (m :: ms) => flattenGroup m ++ flattenGroup (.group ms)

/-- A typed, positioned span of the source document.  Per the observed sample
output, `spanStart`/`spanStop` are an inclusive character interval; `slice` is
the backing slice `doc[spanStart .. spanStop]`. -/
structure Block where
  bType : String
  subName : String
  spanStart : Nat
  spanStop : Nat
  slice : List Char
deriving DecidableEq

/-- Modelled from the spec: try the patterns in declared (pre-order) priority
order; the first pattern producing any match supplies the candidate span. -/
def firstMatch (pats : List PatternSpec) (doc : List Char) (c : Nat) :
    Option (PatternSpec × Nat × Nat) :=
  match pats with
  | [] => none
  | s :: rest =>
    match s.matcher doc c with
    | some (p, e) => some (s, p, e)
    | none => firstMatch rest doc c

/-- The block emitted for a half-open match span `[p, e)`: char span is
recorded inclusively as `(p, e - 1)`, the backing slice is `doc[p .. e)`. -/
def mkBlock (s : PatternSpec) (p e : Nat) (doc : List Char) : Block :=
  ⟨s.pType, s.subName, p, e - 1, (doc.drop p).take (e - p)⟩

/-- Modelled from the spec: the scanning loop of the partitioner.  At cursor
`c`, select the candidate match; fail with `UnmatchedRegionError c` if no
pattern matches the remaining text; reject a zero-length match with
`InvalidPatternError`; otherwise emit the block and advance the cursor to the
match end.  `fuel` bounds the recursion; `partition` supplies enough fuel for
any document. -/
def scanFrom (doc : List Char) (pats : List PatternSpec) :
    Nat → Nat → Except ParseError (List Block)
  | 0, _ => .error .outOfFuel
  | fuel + 1, c =>
    if c ≥ doc.length then .ok []
    else
      match firstMatch pats doc c with
      | none => .error (.unmatchedRegion c)
      | some (s, p, e) =>
        if e ≤ p then .error (.invalidPattern s.subName)
        else if p < c then .error (.matchBeforeCursor s.subName)
        else
          match scanFrom doc pats fuel e with
          | .error err => .error err
          | .ok rest => .ok (mkBlock s p e doc :: rest)

/-- Does the block list tile the interval `[c, len)` exactly, each block an
inclusive span `[spanStart, spanStop]` with the next block starting at
`spanStop + 1`? -/
def tilesFrom (len : Nat) : Nat → List Block → Bool
  | c, [] => c = len
  | c, b :: rest =>
    b.spanStart = c && b.spanStart ≤ b.spanStop && b.spanStop < len &&
      tilesFrom len (b.spanStop + 1) rest

/-- Modelled from the spec: the partition invariant asserted before the
BlockTable is returned. -/
def checkPartition (bt : List Block) (len : Nat) : Bool :=
  tilesFrom len 0 bt

/-- Modelled from the spec: `partition(document, patterns) -> BlockTable`.
Scans once from offset 0 and asserts the partition invariant before
returning. -/
def partition (pats : List PatternSpec) (doc : List Char) :
    Except ParseError (List Block) :=
  match scanFrom doc pats (doc.length + 1) 0 with
  | .error err => .error err
  | .ok bt => if checkPartition bt doc.length then .ok bt else .error .partitionAssert

instance : DecidableEq (Except ParseError (List Block)) := fun a b =>
  match a, b with
  | .ok x, .ok y => decidable_of_iff (x = y) (by simp)
  | .error x, .error y => decidable_of_iff (x = y) (by simp)
  | .ok _, .error _ => isFalse (by simp)
  | .error _, .ok _ => isFalse (by simp)

/-! ## Small concrete instances used to witness the generic theorems -/

/-- A pattern that claims the whole remaining text at the cursor. -/
def wholeRest : PatternSpec :=
  ⟨"Block", "WholeRest", fun doc c => if c < doc.length then some (c, doc.length) else none⟩

/-- A pattern whose match is always zero-length (rejected by the scanner). -/
def zeroLen : PatternSpec :=
  ⟨"Block", "ZeroLen", fun _ c => some (c, c)⟩

/-- A pattern claiming exactly one character at the cursor. -/
def oneChar : PatternSpec :=
  ⟨"Block", "OneChar", fun doc c => if c < doc.length then some (c, c + 1) else none⟩

/-- A lower-priority pattern claiming two characters at the cursor: at offset
0 of `demoDoc` both `oneChar` and `twoChar` match, with `oneChar` declared
earlier. -/
def twoChar : PatternSpec :=
  ⟨"Block", "TwoChar", fun doc c => if c + 1 < doc.length then some (c, c + 2) else none⟩

/-- A pattern that never matches. -/
def neverMatch : PatternSpec :=
  ⟨"Block", "NeverMatch", fun _ _ => none⟩

/-- A pattern that matches only strictly after the start of a document: at
cursor 0 it claims no prefix of the remaining text, but it does match at
offset 1. -/
def tailOnly : PatternSpec :=
  ⟨"Block", "TailOnly",
   fun doc c => if c ≤ 1 ∧ 1 < doc.length then some (1, doc.length) else none⟩

def demoDoc : List Char := "ab\n".toList

/-- The single block `partition [wholeRest] demoDoc` emits. -/
def demoBlock : Block := ⟨"Block", "WholeRest", 0, 2, "ab\n".toList⟩

/-- The block table `partition [wholeRest] demoDoc` evaluates to. -/
def demoBT : List Block := [demoBlock]

/-! ## The observed GPAW sample table

Transcribed from `examples/gpaw_example.ipynb`: the table returned by
`gpaw_file.get_blocks()` for the example GPAW document, in the exact row
order shown by the notebook. -/

/-- One row of the tabular export:
`{Type, Subtype, element_reference, CharPosition, LinePosition}` (the element
reference is an opaque per-row object and is omitted here). -/
structure ExportRow where
  rowType : String
  rowSubtype : String
  charStart : Nat
  charStop : Nat
  lineStart : Nat
  lineStop : Nat
deriving DecidableEq

/-- The observed `gpaw_file.get_blocks()` rows, in notebook order. -/
def observedGpawRows : List ExportRow :=
  [⟨"Block", "BlockGpawIcon", 1, 109, 3, 8⟩,
   ⟨"Block", "BlockGpawDipole", 111, 166, 11, 12⟩,
   ⟨"Spacer", "Spacer", 0, 0, 1, 2⟩,
   ⟨"Spacer", "Spacer", 110, 110, 9, 10⟩]

/-- The same four observed rows sorted into document order. -/
def docOrderGpawRows : List ExportRow :=
  [⟨"Spacer", "Spacer", 0, 0, 1, 2⟩,
   ⟨"Block", "BlockGpawIcon", 1, 109, 3, 8⟩,
   ⟨"Spacer", "Spacer", 110, 110, 9, 10⟩,
   ⟨"Block", "BlockGpawDipole", 111, 166, 11, 12⟩]

/-- The example document length implied by the observed inclusive spans:
the last block covers characters 111 ... 166, so the document has 167
characters. -/
def gpawDocLength : Nat := 167

/-- Modelled from the spec: the tabular exporter projects each Block into one
row, preserving BlockTable order (the export row holds no line information
beyond what the Block carries; line spans in the export are those of the
Block, which this model does not recompute). -/
def exportRow (lineOf : Nat → Nat) (b : Block) : ExportRow :=
  ⟨b.bType, b.subName, b.spanStart, b.spanStop, lineOf b.spanStart, lineOf b.spanStop⟩

/-- Modelled from the spec: the tabular export of a BlockTable. -/
def exportTable (lineOf : Nat → Nat) (bt : List Block) : List ExportRow :=
  bt.map (exportRow lineOf)

/-! ## Declarative configuration and the Pattern Expander

The textual pattern entries below are transcribed verbatim from
`chemparse/vasp_regex.json` (literal `{` and `}` of the regex texts are
written with the escapes `\x7b` and `\x7d`). -/

/-- A terminal pattern entry of the declarative configuration:
`{p_type, p_subtype, pattern, flags}`. -/
structure PatternDef where
  pType : String
  pSubtype : String
  patternText : String
  flags : List String
deriving DecidableEq

/-- A blueprint: a shared template (`pattern_structure.beginning` /
`pattern_structure.ending` plus flags) and an ordered mapping
`pattern_texts : subtype_name → literal marker text`. -/
structure BlueprintDefinition where
  beginning : String
  ending : String
  flags : List String
  variants : List (String × String)
deriving DecidableEq

/-- Modelled from the spec: a node of the declarative configuration tree —
a leaf pattern, a blueprint, or a nested priority-ordered group. -/
inductive SpecNode where
  | leaf (d : PatternDef)
  | blueprint (b : BlueprintDefinition)
  | group (children : List SpecNode)

/-- Modelled from the spec: blueprint expansion — one concrete pattern per
variant, in declared order, each named after its variant key, with pattern
text `beginning ++ marker_text ++ ending` and the blueprint's flags. -/
def expandBlueprint (b : BlueprintDefinition) : List PatternDef :=
  b.variants.map fun v => ⟨"Block", v.1, b.beginning ++ v.2 ++ b.ending, b.flags⟩

/-- Modelled from the spec: `expand(spec_tree) -> flat_catalogue`, pre-order,
expanding each blueprint in place at its position in the enclosing group. -/
def expandNode : SpecNode → List PatternDef
  | .leaf d => [d]
  | .blueprint b => expandBlueprint b
  | .group [] => []
  | .group (n :: ns) => expandNode n ++ expandNode (.group ns)

/-- `TypeKnownBlocks.BlockVaspWarning` from `chemparse/vasp_regex.json`. -/
def blockVaspWarningDef : PatternDef :=
  ⟨"Block", "BlockVaspWarning",
   "((?:^[ \\t]*-\x7b50,\x7d[ \\t]*\\n)(?:[ \\t]*\\|(?!\\n).*\\|[ \\t]*\\n)*(^[ \\t]*\\|[ \\t]*W.*?A.*?R.*?N.*?I.*?N.*?G.*?\\!.*?\\|[ \\t]*\\n)(?:[ \\t]*\\|(?!\\n).*\\|[ \\t]*\\n)*(?:^[ \\t]*-\x7b50,\x7d[ \\t]*\\n))",
   ["MULTILINE"]⟩

/-- `TypeKnownBlocks.BlockVaspGeneralTiming` from `chemparse/vasp_regex.json`. -/
def blockVaspGeneralTimingDef : PatternDef :=
  ⟨"Block", "BlockVaspGeneralTiming",
   "((?:^[ \\t]*\\n)(?:^[ \\t]*General timing and accounting informations for this job:[ \\t]*\\n)(?:^ \x7b1,2\x7d=\x7b20,\x7d[ \\t]*\\n)(?:(?:(?:^[ \\t]*$)|(?:^[ \\t]*.*\\:.*[ \\t]*$))\\n?)+)",
   ["MULTILINE"]⟩

/-- `TypeKnownBlocks.BlueprintBlockWithSingeLineHeader` from
`chemparse/vasp_regex.json`: the blueprint with two text variants. -/
def vaspBlueprint : BlueprintDefinition :=
  ⟨"^((?:^[ \\t]*\\n)(?:^[ \\t]*",
   "[ \\t]*\\n)(?:^ \x7b1,2\x7d-\x7b20,\x7d[ \\t]*$)\\n(?:^(?!^-\x7b80,\x7d[ \\t]*$|^-\x7b20,\x7d[ \\t]*Iteration[ \\t]*\\d+[ \\t]*\\([ \\t]*\\d+[ \\t]*\\)[ \\t]*-\x7b20,\x7d[ \\t]*$|(?:^[ \\t]*\\n)(?:^(?!\\n).*\\n)\x7b1,2\x7d(?:^ \x7b1,2\x7d-\x7b20,\x7d[ \\t]*$)).*\\n)+)",
   ["MULTILINE"],
   [("BlockVaspFreeEnergieOfTheIonElectronSystem",
     "FREE ENERGIE OF THE ION-ELECTRON SYSTEM \\(eV\\)"),
    ("BlockVaspFreeEnergyOfTheIonElectronSystem",
     "Free energy of the ion-electron system \\(eV\\)")]⟩

/-- `TypeDefaultBlocks.BlockVaspWithSingleLineHeader` from
`chemparse/vasp_regex.json`. -/
def blockVaspWithSingleLineHeaderDef : PatternDef :=
  ⟨"Block", "BlockVaspWithSingleLineHeader",
   "^((?:^[ \\t]*\\n)(?:^(?!\\n).*\\n)(?:^ \x7b1,2\x7d-\x7b20,\x7d[ \\t]*$)\\n(?:^(?!^-\x7b80,\x7d[ \\t]*$|^-\x7b20,\x7d[ \\t]*Iteration[ \\t]*\\d+[ \\t]*\\([ \\t]*\\d+[ \\t]*\\)[ \\t]*-\x7b20,\x7d[ \\t]*$|(?:^[ \\t]*\\n)(?:^(?!\\n).*\\n)\x7b1,2\x7d(?:^ \x7b1,2\x7d-\x7b20,\x7d[ \\t]*$)).*\\n)+)",
   ["MULTILINE"]⟩

/-- `TypeDefaultBlocks.BlockVaspWithStandardHeader` from
`chemparse/vasp_regex.json`. -/
def blockVaspWithStandardHeaderDef : PatternDef :=
  ⟨"Block", "BlockVaspWithStandardHeader",
   "^((?:^[ \\t]*\\n)(?:^(?!\\n).*\\n)\x7b1,2\x7d(?:^ \x7b1,2\x7d-\x7b20,\x7d[ \\t]*$)\\n(?:^(?!^-\x7b80,\x7d[ \\t]*$|^-\x7b20,\x7d[ \\t]*Iteration[ \\t]*\\d+[ \\t]*\\([ \\t]*\\d+[ \\t]*\\)[ \\t]*-\x7b20,\x7d[ \\t]*$|(?:^[ \\t]*\\n)(?:^(?!\\n).*\\n)\x7b1,2\x7d(?:^ \x7b1,2\x7d-\x7b20,\x7d[ \\t]*$)).*\\n)+)",
   ["MULTILINE"]⟩

/-- The final `Spacer` tier from `chemparse/vasp_regex.json`. -/
def spacerDef : PatternDef :=
  ⟨"Spacer", "Spacer", "^(\\s*\\n)", ["MULTILINE"]⟩

/-- The declarative VASP configuration tree of `chemparse/vasp_regex.json`:
root order `[TypeKnownBlocks, TypeDefaultBlocks, Spacer]`, with
`TypeKnownBlocks = [BlockVaspWarning, BlockVaspGeneralTiming, blueprint]`
and `TypeDefaultBlocks = [SingleLineHeader, StandardHeader]`. -/
def vaspConfigTree : SpecNode :=
  .group
    [.group [.leaf blockVaspWarningDef, .leaf blockVaspGeneralTimingDef,
             .blueprint vaspBlueprint],
     .group [.leaf blockVaspWithSingleLineHeaderDef,
             .leaf blockVaspWithStandardHeaderDef],
     .leaf spacerDef]

/-! ## Mode Registry -/

/-- Modelled from the spec: a mode's root pattern group and renderer table
(subtype name → qualified renderer class name, as shown by the notebook). -/
structure Mode where
  rootGroup : SpecNode
  renderers : List (String × String)

/-- Modelled from the spec: the GPAW mode.  Its renderer table is the
four-entry `AvailableBlocksGpaw.blocks` mapping shown in
`examples/gpaw_example.ipynb`; its pattern definitions are not part of the
snapshot, so the root group is left empty. -/
def gpawMode : Mode :=
  ⟨.group [],
   [("BlockGpawIcon", "chemparse.gpaw_elements.BlockGpawIcon"),
    ("BlockGpawDipole", "chemparse.gpaw_elements.BlockGpawDipole"),
    ("BlockGpawEnergyContributions",
     "chemparse.gpaw_elements.BlockGpawEnergyContributions"),
    ("BlockGpawConvergedAfter",
     "chemparse.gpaw_elements.BlockGpawConvergedAfter")]⟩

/-- Modelled from the spec: the ORCA mode (notebook: "For now, `ORCA` and
`GPAW` are available"); its definitions are not part of the snapshot. -/
def orcaMode : Mode := ⟨.group [], []⟩

/-- Modelled from the spec: the registry, keyed by mode name.  The notebook
documents ORCA and GPAW as the registered modes. -/
def registeredModes : List (String × Mode) :=
  [("ORCA", orcaMode), ("GPAW", gpawMode)]

/-- Modelled from the spec: `load(mode_name)`; fails with `UnknownModeError`
for an unregistered name. -/
def loadMode (modeName : String) : Except ParseError Mode :=
  match registeredModes.lookup modeName with
  | some m => .ok m
  | none => .error (.unknownMode modeName)

/-! ## A backtracking regex engine

Semantics of the Python `re` constructs used by `chemparse/vasp_regex.json`,
under the MULTILINE flag: `^`/`$` anchor at line boundaries, `.` excludes the
newline, matching is backtracking with greedy (`*`, `{m,}`, `{m,n}`) and lazy
(`*?`) quantifiers, and `(?! ...)` is a negative lookahead.  An unbounded
quantifier stops repeating on an empty body match (Python's empty-match
repetition rule). -/
inductive RE where
  | eps
  | ch (c : Char)
  | cls (f : Char → Bool)
  | seq (a b : RE)
  | alt (a b : RE)
  | star (a : RE)
  | starL (a : RE)
  | repAL (m : Nat) (a : RE)
  | repR (m n : Nat) (a : RE)
  | nla (a : RE)
  | bol
  | eol

/-- Backtracking matcher in continuation-passing style.  `reMatch doc fuel re
pos k` tries to match `re` at offset `pos` of `doc` and calls `k` at each
candidate continuation offset, preferring earlier alternatives and longer
greedy repetitions; it returns the first overall match end `k` accepts.
`fuel` bounds the recursion depth. -/
def reMatch (doc : List Char) : Nat → RE → Nat → (Nat → Option Nat) → Option Nat
  | 0, _, _, _ => none
  | fuel + 1, re, pos, k =>
    match re with
    | .eps => k pos
    | .ch c =>
      match doc.get? pos with
      | some c2 => if c2 = c then k (pos + 1) else none
      | none => none
    | .cls f =>
      match doc.get? pos with
      | some c2 => if f c2 then k (pos + 1) else none
      | none => none
    | .seq a b => reMatch doc fuel a pos (fun q => reMatch doc fuel b q k)
    | .alt a b =>
      match reMatch doc fuel a pos k with
      | some e => some e
      | none => reMatch doc fuel b pos k
    | .star a =>
      match reMatch doc fuel a pos
          (fun q => if pos < q then reMatch doc fuel (.star a) q k else none) with
      | some e => some e
      | none => k pos
    | .starL a =>
      match k pos with
      | some e => some e
      | none =>
        reMatch doc fuel a pos
          (fun q => if pos < q then reMatch doc fuel (.starL a) q k else none)
    | .repAL 0 a => reMatch doc fuel (.star a) pos k
    | .repAL (m + 1) a =>
      reMatch doc fuel a pos (fun q => reMatch doc fuel (.repAL m a) q k)
    | .repR 0 0 _ => k pos
    | .repR 0 (n + 1) a =>
      match reMatch doc fuel a pos
          (fun q => if pos < q then reMatch doc fuel (.repR 0 n a) q k else none) with
      | some e => some e
      | none => k pos
    | .repR (m + 1) n a =>
      reMatch doc fuel a pos (fun q => reMatch doc fuel (.repR m (n - 1) a) q k)
    | .nla a =>
      match reMatch doc fuel a pos some with
      | some _ => none
      | none => k pos
    | .bol =>
      if pos = 0 then k pos
      else
        match doc.get? (pos - 1) with
        | some c2 => if c2 = '\n' then k pos else none
        | none => none
    | .eol =>
      if pos = doc.length then k pos
      else
        match doc.get? pos with
        | some c2 => if c2 = '\n' then k pos else none
        | none => none

/-- Fuel that is ample for the documents this development evaluates the
engine on. -/
def reFuel (doc : List Char) : Nat := (doc.length + 2) * 1000

/-- `re.search` from offset `c`: the match at the smallest start offset
`p ≥ c`, with the backtracking-preferred end for that `p`. -/
def reSearchAux (doc : List Char) (re : RE) : Nat → Nat → Option (Nat × Nat)
  | 0, _ => none
  | tries + 1, p =>
    match reMatch doc (reFuel doc) re p some with
    | some e => some (p, e)
    | none => reSearchAux doc re tries (p + 1)

def reSearch (re : RE) (doc : List Char) (c : Nat) : Option (Nat × Nat) :=
  reSearchAux doc re (doc.length + 1 - c) c

/-- A `PatternSpec` whose matcher is the engine run on a transcribed
pattern. -/
def rePat (pType subName : String) (re : RE) : PatternSpec :=
  ⟨pType, subName, fun doc c => reSearch re doc c⟩

/-! ### Transcription of the six VASP patterns into `RE` -/

/-- Sequence a list of regex components. -/
def seqs (rs : List RE) : RE := rs.foldr .seq .eps

/-- A literal string. -/
def lit (s : String) : RE := seqs (s.toList.map .ch)

/-- The class `[ \t]`. -/
def wsChar : RE := .cls (fun c => c == ' ' || c == '\t')

def wsStar : RE := .star wsChar

/-- `.` under MULTILINE: any character except the newline. -/
def dotRE : RE := .cls (fun c => !(c == '\n'))

def dotStar : RE := .star dotRE

def dotStarL : RE := .starL dotRE

/-- Python's `\s` character test. -/
def isPySpace (c : Char) : Bool :=
  c == ' ' || c == '\t' || c == '\n' || c == '\r' || c == '\x0b' || c == '\x0c'

/-- Python `\s`. -/
def pySpace : RE := .cls isPySpace

/-- Python `\d`. -/
def digitRE : RE := .cls Char.isDigit

def nlRE : RE := .ch '\n'

/-- `^[ \t]*\n` — a blank line. -/
def reBlankLine : RE := seqs [.bol, wsStar, nlRE]

/-- `^[ \t]*-{50,}[ \t]*\n`. -/
def reDashLine50 : RE := seqs [.bol, wsStar, .repAL 50 (.ch '-'), wsStar, nlRE]

/-- `[ \t]*\|(?!\n).*\|[ \t]*\n`. -/
def rePipeLine : RE :=
  seqs [wsStar, .ch '|', .nla nlRE, dotStar, .ch '|', wsStar, nlRE]

/-- `^[ \t]*\|[ \t]*W.*?A.*?R.*?N.*?I.*?N.*?G.*?\!.*?\|[ \t]*\n`. -/
def reWarnLine : RE :=
  seqs [.bol, wsStar, .ch '|', wsStar, .ch 'W', dotStarL, .ch 'A', dotStarL,
    .ch 'R', dotStarL, .ch 'N', dotStarL, .ch 'I', dotStarL, .ch 'N', dotStarL,
    .ch 'G', dotStarL, .ch '!', dotStarL, .ch '|', wsStar, nlRE]

/-- `BlockVaspWarning`'s pattern. -/
def reWarning : RE :=
  seqs [reDashLine50, .star rePipeLine, reWarnLine, .star rePipeLine, reDashLine50]

/-- `BlockVaspGeneralTiming`'s pattern. -/
def reTiming : RE :=
  seqs [reBlankLine,
    seqs [.bol, wsStar,
      lit "General timing and accounting informations for this job:", wsStar, nlRE],
    seqs [.bol, .repR 1 2 (.ch ' '), .repAL 20 (.ch '='), wsStar, nlRE],
    .repAL 1 (seqs [.alt (seqs [.bol, wsStar, .eol])
        (seqs [.bol, wsStar, dotStar, .ch ':', dotStar, wsStar, .eol]),
      .repR 0 1 nlRE])]

/-- `^(?!\n).*\n` — one non-empty line. -/
def reContentLine : RE := seqs [.bol, .nla nlRE, dotStar, nlRE]

/-- `^ {1,2}-{20,}[ \t]*$` — the dashed header underline. -/
def reDashHeaderTail : RE :=
  seqs [.bol, .repR 1 2 (.ch ' '), .repAL 20 (.ch '-'), wsStar, .eol]

/-- The shared negative-lookahead body of the header-block patterns:
`^-{80,}[ \t]*$ | ^-{20,}[ \t]*Iteration[ \t]*\d+[ \t]*\([ \t]*\d+[ \t]*\)
[ \t]*-{20,}[ \t]*$ | (?:^[ \t]*\n)(?:^(?!\n).*\n){1,2}(?:^ {1,2}-{20,}[ \t]*$)`. -/
def reHeaderStopBody : RE :=
  .alt (seqs [.bol, .repAL 80 (.ch '-'), wsStar, .eol])
    (.alt
      (seqs [.bol, .repAL 20 (.ch '-'), wsStar, lit "Iteration", wsStar,
        .repAL 1 digitRE, wsStar, .ch '(', wsStar, .repAL 1 digitRE, wsStar,
        .ch ')', wsStar, .repAL 20 (.ch '-'), wsStar, .eol])
      (seqs [reBlankLine, .repR 1 2 reContentLine, reDashHeaderTail]))

/-- `(?:^(?! ... ).*\n)+` — the body lines of a header block. -/
def reBodyLines : RE := .repAL 1 (seqs [.bol, .nla reHeaderStopBody, dotStar, nlRE])

/-- The expanded blueprint pattern for marker text `m`:
`^((?:^[ \t]*\n)(?:^[ \t]*m[ \t]*\n)(?:^ {1,2}-{20,}[ \t]*$)\n(?: ... )+)`. -/
def reHeaderBlockWithMarker (m : String) : RE :=
  seqs [.bol, reBlankLine, seqs [.bol, wsStar, lit m, wsStar, nlRE],
    reDashHeaderTail, nlRE, reBodyLines]

def reFreeEnergie : RE :=
  reHeaderBlockWithMarker "FREE ENERGIE OF THE ION-ELECTRON SYSTEM (eV)"

def reFreeEnergy : RE :=
  reHeaderBlockWithMarker "Free energy of the ion-electron system (eV)"

/-- `BlockVaspWithSingleLineHeader`'s pattern. -/
def reSingleLineHeader : RE :=
  seqs [.bol, reBlankLine, reContentLine, reDashHeaderTail, nlRE, reBodyLines]

/-- `BlockVaspWithStandardHeader`'s pattern. -/
def reStandardHeader : RE :=
  seqs [.bol, reBlankLine, .repR 1 2 reContentLine, reDashHeaderTail, nlRE,
    reBodyLines]

/-- The `Spacer` tier's pattern `^(\s*\n)`. -/
def reSpacer : RE := seqs [.bol, .star pySpace, nlRE]

/-- The flat VASP pattern catalogue in pre-order declared priority:
`TypeKnownBlocks` (Warning, GeneralTiming, the two blueprint variants),
`TypeDefaultBlocks` (SingleLineHeader, StandardHeader), then `Spacer`. -/
def vaspSpecs : List PatternSpec :=
  [rePat "Block" "BlockVaspWarning" reWarning,
   rePat "Block" "BlockVaspGeneralTiming" reTiming,
   rePat "Block" "BlockVaspFreeEnergieOfTheIonElectronSystem" reFreeEnergie,
   rePat "Block" "BlockVaspFreeEnergyOfTheIonElectronSystem" reFreeEnergy,
   rePat "Block" "BlockVaspWithSingleLineHeader" reSingleLineHeader,
   rePat "Block" "BlockVaspWithStandardHeader" reStandardHeader,
   rePat "Spacer" "Spacer" reSpacer]

/-! ## Lemmas about the tiling check -/

lemma tilesFrom_head {len c : Nat} {b : Block} {rest : List Block}
    (h : tilesFrom len c (b :: rest) = true) : b.spanStart = c := by
  simp only [tilesFrom, Bool.and_eq_true, decide_eq_true_eq] at h
  exact h.1.1.1

lemma tilesFrom_spec (len : Nat) : ∀ (bt : List Block) (c : Nat),
    tilesFrom len c bt = true →
    (∀ b ∈ bt, c ≤ b.spanStart ∧ b.spanStart ≤ b.spanStop ∧ b.spanStop < len)
    ∧ List.Pairwise (fun a b => a.spanStop < b.spanStart) bt
    ∧ List.Chain' (fun a b => b.spanStart = a.spanStop + 1) bt
    ∧ (∀ k, c ≤ k → k < len → ∃ b ∈ bt, b.spanStart ≤ k ∧ k ≤ b.spanStop)
  | [], c, h => by
    simp only [tilesFrom, decide_eq_true_eq] at h
    refine ⟨by simp, by simp, by simp, ?_⟩
    intro k hck hk
    omega
  | b :: rest, c, h => by
    simp only [tilesFrom, Bool.and_eq_true, decide_eq_true_eq] at h
    obtain ⟨⟨⟨h1, h2⟩, h3⟩, h4⟩ := h
    obtain ⟨ihMem, ihPw, ihCh, ihCov⟩ := tilesFrom_spec len rest (b.spanStop + 1) h4
    refine ⟨?_, ?_, ?_, ?_⟩
    · intro x hx
      rcases List.mem_cons.mp hx with rfl | hx
      · exact ⟨by omega, h2, h3⟩
      · have := ihMem x hx
        exact ⟨by omega, this.2.1, this.2.2⟩
    · refine List.Pairwise.cons ?_ ihPw
      intro x hx
      have := ihMem x hx
      omega
    · refine List.chain'_cons'.mpr ⟨?_, ihCh⟩
      intro y hy
      cases rest with
      | nil => simp at hy
      | cons r rs =>
        simp only [List.head?_cons, Option.mem_def, Option.some.injEq] at hy
        subst hy
        exact tilesFrom_head h4
    · intro k hck hk
      by_cases hke : k ≤ b.spanStop
      · exact ⟨b, List.mem_cons_self b rest, by omega, hke⟩
      · obtain ⟨x, hx, hx1, hx2⟩ := ihCov k (by omega) hk
        exact ⟨x, List.mem_cons_of_mem b hx, hx1, hx2⟩

/-! ## Lemmas about the scanning loop -/

lemma scanFrom_ok_props (doc : List Char) (pats : List PatternSpec) :
    ∀ (fuel c : Nat) (bt : List Block), scanFrom doc pats fuel c = .ok bt →
    (∀ b ∈ bt, c ≤ b.spanStart ∧ b.spanStart ≤ b.spanStop ∧
      b.slice = (doc.drop b.spanStart).take (b.spanStop + 1 - b.spanStart))
    ∧ List.Chain' (fun a b2 => a.spanStop < b2.spanStart) bt
    ∧ bt.length ≤ doc.length - c
  | 0, c, bt, h => by simp [scanFrom] at h
  | fuel + 1, c, bt, h => by
    simp only [scanFrom] at h
    split at h
    · rename_i hge
      obtain rfl : ([] : List Block) = bt := by simpa using h
      simp
    · rename_i hlt
      split at h
      · simp at h
      · rename_i s p e heq
        split at h
        · simp at h
        · rename_i hzl
          split at h
          · simp at h
          · rename_i hbc
            split at h
            · simp at h
            · rename_i rest hrec
              obtain rfl : mkBlock s p e doc :: rest = bt := by simpa using h
              obtain ⟨ihMem, ihCh, ihLen⟩ := scanFrom_ok_props doc pats fuel e rest hrec
              have hcp : c ≤ p := by omega
              have hpe : p < e := by omega
              refine ⟨?_, ?_, ?_⟩
              · intro x hx
                rcases List.mem_cons.mp hx with rfl | hx
                · refine ⟨by simp [mkBlock]; omega, by simp [mkBlock]; omega, ?_⟩
                  simp only [mkBlock]
                  have : e - 1 + 1 - p = e - p := by omega
                  rw [this]
                · have := ihMem x hx
                  exact ⟨by omega, this.2.1, this.2.2⟩
              · refine List.chain'_cons'.mpr ⟨?_, ihCh⟩
                intro y hy
                have hy' : y ∈ rest := List.mem_of_mem_head? hy
                have := ihMem y hy'
                simp only [mkBlock]
                omega
              · simp only [List.length_cons]
                omega

lemma scanFrom_fuel_sufficient (doc : List Char) (pats : List PatternSpec) :
    ∀ (fuel c : Nat), doc.length - c < fuel →
    scanFrom doc pats fuel c ≠ .error .outOfFuel
  | 0, c, h => by omega
  | fuel + 1, c, h => by
    simp only [scanFrom]
    split
    · simp
    · rename_i hlt
      split
      · simp
      · rename_i s p e heq
        split
        · simp
        · rename_i hzl
          split
          · simp
          · rename_i hbc
            split
            · rename_i err hrec
              have : doc.length - e < fuel := by omega
              have hne := scanFrom_fuel_sufficient doc pats fuel e this
              rw [hrec] at hne
              intro hcontra
              injection hcontra with hc
              subst hc
              exact hne rfl
            · simp

/-! ## Lemmas about match selection -/

lemma firstMatch_first (doc : List Char) (c : Nat) :
    ∀ (pats : List PatternSpec) (i : Nat) (hi : i < pats.length) (p e : Nat),
    (∀ k (hk : k < i), (pats.get ⟨k, lt_trans hk hi⟩).matcher doc c = none) →
    (pats.get ⟨i, hi⟩).matcher doc c = some (p, e) →
    firstMatch pats doc c = some (pats.get ⟨i, hi⟩, p, e)
  | [], i, hi, p, e, _, _ => absurd hi (by simp)
  | s :: rest, 0, hi, p, e, hbef, hm => by
    simp only [List.get] at hm
    simp [firstMatch, hm]
  | s :: rest, i + 1, hi, p, e, hbef, hm => by
    have h0 : s.matcher doc c = none := by
      have := hbef 0 (Nat.succ_pos i)
      simpa using this
    have hi2 : i < rest.length := by simpa using hi
    have IH := firstMatch_first doc c rest i hi2 p e
      (fun k hk => by
        have := hbef (k + 1) (Nat.succ_lt_succ hk)
        simpa using this)
      (by simpa using hm)
    simp only [firstMatch, h0]
    simpa using IH

lemma join_of_tiles (doc : List Char) :
    ∀ (bt : List Block) (c : Nat), tilesFrom doc.length c bt = true →
    (∀ b ∈ bt, b.slice = (doc.drop b.spanStart).take (b.spanStop + 1 - b.spanStart)) →
    (bt.map Block.slice).flatten = doc.drop c
  | [], c, h, _ => by
    simp only [tilesFrom, decide_eq_true_eq] at h
    subst h
    simp [List.drop_length]
  | b :: rest, c, h, hsl => by
    simp only [tilesFrom, Bool.and_eq_true, decide_eq_true_eq] at h
    obtain ⟨⟨⟨h1, h2⟩, h3⟩, h4⟩ := h
    have IH := join_of_tiles doc rest (b.spanStop + 1) h4
      (fun x hx => hsl x (List.mem_cons_of_mem b hx))
    have hb := hsl b (List.mem_cons_self b rest)
    subst h1
    simp only [List.map_cons, List.flatten_cons, IH, hb]
    have hdd : doc.drop (b.spanStop + 1) =
        (doc.drop b.spanStart).drop (b.spanStop + 1 - b.spanStart) := by
      rw [List.drop_drop]
      congr 1
      omega
    rw [hdd, List.take_append_drop]

/-! ## Lemmas about the engine on the Spacer pattern -/

lemma reMatch_eps (doc : List Char) (fuel pos e : Nat) (k : Nat → Option Nat)
    (h : reMatch doc fuel .eps pos k = some e) : k pos = some e := by
  cases fuel with
  | zero => simp [reMatch] at h
  | succ n => simpa [reMatch] using h

lemma reMatch_ch (doc : List Char) (c : Char) (fuel pos e : Nat)
    (k : Nat → Option Nat) (h : reMatch doc fuel (.ch c) pos k = some e) :
    doc.get? pos = some c ∧ k (pos + 1) = some e := by
  cases fuel with
  | zero => simp [reMatch] at h
  | succ n =>
    simp only [reMatch] at h
    split at h
    · rename_i c2 hget
      split at h
      · rename_i hc
        subst hc
        exact ⟨hget, h⟩
      · cases h
    · cases h

lemma reMatch_bol (doc : List Char) (fuel pos e : Nat) (k : Nat → Option Nat)
    (h : reMatch doc fuel .bol pos k = some e) : k pos = some e := by
  cases fuel with
  | zero => simp [reMatch] at h
  | succ n =>
    simp only [reMatch] at h
    split at h
    · exact h
    · split at h
      · rename_i c2 hget
        split at h
        · exact h
        · cases h
      · cases h

lemma reMatch_star_cls (doc : List Char) (f : Char → Bool) (fuel : Nat) :
    ∀ (pos e : Nat) (k : Nat → Option Nat),
    reMatch doc fuel (.star (.cls f)) pos k = some e →
    ∃ q, pos ≤ q
      ∧ (∀ i, pos ≤ i → i < q → ∃ ci, doc.get? i = some ci ∧ f ci = true)
      ∧ k q = some e := by
  induction fuel using Nat.strong_induction_on with
  | _ fuel IH =>
    intro pos e k h
    cases fuel with
    | zero => simp [reMatch] at h
    | succ n =>
      simp only [reMatch] at h
      split at h
      · rename_i e2 heq
        have he2 : e2 = e := by simpa using h
        rw [he2] at heq
        cases n with
        | zero => simp [reMatch] at heq
        | succ n2 =>
          simp only [reMatch] at heq
          split at heq
          · rename_i c2 hget
            split at heq
            · rename_i hf
              have heq2 : reMatch doc (n2 + 1) (.star (.cls f)) (pos + 1) k = some e := by
                simpa using heq
              obtain ⟨q, hq1, hq2, hq3⟩ := IH (n2 + 1) (by omega) (pos + 1) e k heq2
              refine ⟨q, by omega, ?_, hq3⟩
              intro i hi1 hi2
              rcases eq_or_lt_of_le hi1 with rfl | hlt
              · exact ⟨c2, hget, hf⟩
              · exact hq2 i (by omega) hi2
            · cases heq
          · cases heq
      · rename_i heq
        exact ⟨pos, le_refl pos, fun i hi1 hi2 => by omega, h⟩

lemma reMatch_spacer (doc : List Char) (fuel pos e : Nat)
    (h : reMatch doc fuel reSpacer pos some = some e) :
    pos < e ∧ doc.get? (e - 1) = some '\n'
    ∧ ∀ i, pos ≤ i → i < e → ∃ ci, doc.get? i = some ci ∧ isPySpace ci = true := by
  cases fuel with
  | zero => simp [reMatch] at h
  | succ n =>
    have hs : reMatch doc (n + 1)
        (.seq .bol (.seq (.star (.cls isPySpace)) (.seq (.ch '\n') .eps)))
        pos some = some e := by
      simpa [reSpacer, seqs, pySpace, nlRE] using h
    simp only [reMatch] at hs
    have h1 := reMatch_bol doc n pos e _ hs
    cases n with
    | zero => simp [reMatch] at h1
    | succ n2 =>
      simp only [reMatch] at h1
      obtain ⟨q, hq1, hq2, hq3⟩ := reMatch_star_cls doc isPySpace n2 pos e _ h1
      cases n2 with
      | zero => simp [reMatch] at hq3
      | succ n3 =>
        simp only [reMatch] at hq3
        obtain ⟨hget, hcont⟩ := reMatch_ch doc '\n' n3 q e _ hq3
        have he : e = q + 1 := by
          have := reMatch_eps doc n3 (q + 1) e some hcont
          simpa using this.symm
        subst he
        refine ⟨by omega, by simpa using hget, ?_⟩
        intro i hi1 hi2
        rcases Nat.lt_or_ge i q with hlt | hge
        · exact hq2 i hi1 hlt
        · obtain rfl : i = q := by omega
          exact ⟨'\n', hget, by decide⟩

lemma reSearchAux_spacer (doc : List Char) :
    ∀ (tries p0 p e : Nat),
    reSearchAux doc reSpacer tries p0 = some (p, e) →
    p < e ∧ doc.get? (e - 1) = some '\n'
    ∧ ∀ i, p ≤ i → i < e → ∃ ci, doc.get? i = some ci ∧ isPySpace ci = true
  | 0, p0, p, e, h => by simp [reSearchAux] at h
  | tries + 1, p0, p, e, h => by
    simp only [reSearchAux] at h
    split at h
    · rename_i e2 heq
      have hpe : p0 = p ∧ e2 = e := by simpa [Prod.ext_iff] using h
      rw [hpe.1, hpe.2] at heq
      exact reMatch_spacer doc (reFuel doc) p e heq
    · exact reSearchAux_spacer doc tries (p0 + 1) p e h

lemma expandNode_group_append : ∀ (xs ys : List SpecNode),
    expandNode (.group (xs ++ ys)) = expandNode (.group xs) ++ expandNode (.group ys)
  | [], ys => by simp [expandNode]
  | x :: xs, ys => by
    simp only [List.cons_append, expandNode, expandNode_group_append xs ys,
      List.append_assoc]

/-! ## Claim theorems -/

/-- C1 (counterexample): read with half-open spans, the observed GPAW sample
table violates the claimed invariant: sorted into document order, the spans
(0,0), (1,109), (110,110), (111,166) are not contiguous in the sense "each
block's end equals the next block's start" (0 ≠ 1), and their half-open union
does not cover offset 0 of the document. -/
theorem observed_spans_not_halfopen_contiguous :
    (¬ List.Chain' (fun a b => a.charStop = b.charStart) docOrderGpawRows)
    ∧ ¬ ∃ r ∈ docOrderGpawRows, r.charStart ≤ 0 ∧ 0 < r.charStop := by
  constructor
  · intro h
    simp [docOrderGpawRows, List.chain'_cons] at h
  · intro h
    simp [docOrderGpawRows] at h

/-- C1 (amended): for every document the partitioner parses successfully, the
BlockTable's inclusive char spans are pairwise non-overlapping, strictly
increasing in start offset, contiguous in the sense that each next block
starts at the previous block's end plus one, and the union of the inclusive
intervals equals the whole interval `[0, len(document))`. -/
theorem partition_inclusive_tiling (pats : List PatternSpec) (doc : List Char)
    (bt : List Block) (h : partition pats doc = .ok bt) :
    List.Pairwise (fun a b => a.spanStop < b.spanStart) bt
    ∧ List.Pairwise (fun a b => a.spanStart < b.spanStart) bt
    ∧ List.Chain' (fun a b => b.spanStart = a.spanStop + 1) bt
    ∧ ∀ k, ((∃ b ∈ bt, b.spanStart ≤ k ∧ k ≤ b.spanStop) ↔ k < doc.length) := by
  have hck : checkPartition bt doc.length = true := by
    unfold partition at h
    split at h
    · simp at h
    · split at h
      · rename_i hc
        obtain rfl : _ = bt := by simpa using h
        exact hc
      · simp at h
  obtain ⟨hmem, hpw, hch, hcov⟩ := tilesFrom_spec doc.length bt 0 hck
  refine ⟨hpw, ?_, hch, ?_⟩
  · refine List.Pairwise.imp_of_mem ?_ hpw
    intro a b ha hb hab
    have := hmem a ha
    omega
  · intro k
    constructor
    · rintro ⟨b, hb, hb1, hb2⟩
      have := hmem b hb
      omega
    · intro hk
      exact hcov k (Nat.zero_le k) hk

/-- C1 (witness): a concrete successful parse; its table satisfies the
contiguity chain and covers offset 1. -/
theorem partition_inclusive_tiling_witness :
    List.Chain' (fun a b => b.spanStart = a.spanStop + 1) demoBT
    ∧ ((∃ b ∈ demoBT, b.spanStart ≤ 1 ∧ 1 ≤ b.spanStop) ↔ 1 < demoDoc.length) :=
  ⟨(partition_inclusive_tiling [wholeRest] demoDoc demoBT (by decide)).2.2.1,
   (partition_inclusive_tiling [wholeRest] demoDoc demoBT (by decide)).2.2.2 1⟩

/-- C2: for every successfully parsed document, concatenating the backing
slice of every Block in BlockTable order reproduces the original document
text exactly. -/
theorem partition_round_trip (pats : List PatternSpec) (doc : List Char)
    (bt : List Block) (h : partition pats doc = .ok bt) :
    (bt.map Block.slice).flatten = doc := by
  have hsc : scanFrom doc pats (doc.length + 1) 0 = .ok bt ∧
      checkPartition bt doc.length = true := by
    unfold partition at h
    split at h
    · simp at h
    · rename_i bt2 hsc
      split at h
      · rename_i hc
        obtain rfl : bt2 = bt := by simpa using h
        exact ⟨hsc, hc⟩
      · simp at h
  have hsl := (scanFrom_ok_props doc pats (doc.length + 1) 0 bt hsc.1).1
  have := join_of_tiles doc bt 0 hsc.2 (fun b hb => (hsl b hb).2.2)
  simpa using this

/-- C2 (witness): the concrete demo parse round-trips. -/
theorem partition_round_trip_witness : (demoBT.map Block.slice).flatten = demoDoc :=
  partition_round_trip [wholeRest] demoDoc demoBT (by decide)

/-- C3: at each cursor position the partitioner selects the candidate of the
first pattern, in pre-order depth-first declared order over the pattern tree,
that produces any match; its start offset is the smallest among all patterns
tried up to and including it, and when a later-declared pattern also matches
at that same offset, the earlier-declared pattern's match is chosen. -/
theorem priority_first_declared_wins (g : PatternGroup) (pats : List PatternSpec)
    (hflat : pats = flattenGroup g) (doc : List Char) (c : Nat)
    (i j : Nat) (hi : i < pats.length) (hj : j < pats.length) (hij : i < j)
    (p e ej : Nat)
    (hbefore : ∀ k (hk : k < i), (pats.get ⟨k, lt_trans hk hi⟩).matcher doc c = none)
    (hmi : (pats.get ⟨i, hi⟩).matcher doc c = some (p, e))
    (hmj : (pats.get ⟨j, hj⟩).matcher doc c = some (p, ej)) :
    firstMatch pats doc c = some (pats.get ⟨i, hi⟩, p, e)
    ∧ ∀ k (hk : k ≤ i) (q e2 : Nat),
        (pats.get ⟨k, lt_of_le_of_lt hk hi⟩).matcher doc c = some (q, e2) → p ≤ q := by
  refine ⟨firstMatch_first doc c pats i hi p e hbefore hmi, ?_⟩
  intro k hk q e2 hq
  rcases Nat.lt_or_ge k i with hlt | hge
  · rw [hbefore k hlt] at hq
    cases hq
  · have hki : k = i := le_antisymm hk hge
    subst hki
    rw [hmi] at hq
    simp only [Option.some.injEq, Prod.mk.injEq] at hq
    omega

/-- C3 (witness): in the group `[NeverMatch, OneChar, TwoChar]`, at cursor 0
of the demo document both `OneChar` and `TwoChar` match at offset 0;
the earlier-declared `OneChar` is selected. -/
theorem priority_first_declared_wins_witness :
    firstMatch [neverMatch, oneChar, twoChar] demoDoc 0 = some (oneChar, 0, 1) :=
  (priority_first_declared_wins
    (.group [.leaf neverMatch, .leaf oneChar, .leaf twoChar])
    [neverMatch, oneChar, twoChar] (by simp [flattenGroup]) demoDoc 0
    1 2 (by decide) (by decide) (by decide) 0 1 2
    (fun k hk => by
      have : k = 0 := by omega
      subst this
      rfl)
    rfl rfl).1

/-- C6 (counterexample): "no pattern claims a non-empty prefix of the
remaining text" does not imply `UnmatchedRegionError`.  At cursor 0 of the
demo document the pattern set `[tailOnly]` claims no non-empty prefix of the
remaining text — its only match, `(1, 3)`, starts after the cursor — yet the
partitioner does not fail with `UnmatchedRegionError 0`: per spec 4.3(d) it
emits the gapped block and the partition-invariant assertion fails
instead. -/
theorem no_prefix_but_later_match_cex :
    tailOnly.matcher demoDoc 0 = some (1, 3)
    ∧ partition [tailOnly] demoDoc = .error .partitionAssert
    ∧ partition [tailOnly] demoDoc ≠ .error (.unmatchedRegion 0) := by
  decide

/-- C6 (amended): if, at some cursor position of a partially consumed
document, no pattern of the mode matches the remaining text at or after that
cursor, the scan fails with `UnmatchedRegionError` carrying that cursor
offset and yields no BlockTable; likewise for a whole-document parse whose
very first cursor is uncovered. -/
theorem unmatched_region_failure (doc : List Char) (pats : List PatternSpec) :
    (∀ c fuel, c < doc.length → firstMatch pats doc c = none →
      scanFrom doc pats (fuel + 1) c = .error (.unmatchedRegion c)
      ∧ ∀ bt, scanFrom doc pats (fuel + 1) c ≠ .ok bt)
    ∧ (0 < doc.length → firstMatch pats doc 0 = none →
      partition pats doc = .error (.unmatchedRegion 0)
      ∧ ∀ bt, partition pats doc ≠ .ok bt) := by
  have main : ∀ c fuel, c < doc.length → firstMatch pats doc c = none →
      scanFrom doc pats (fuel + 1) c = .error (.unmatchedRegion c) := by
    intro c fuel hc hfm
    simp only [scanFrom]
    rw [if_neg (by omega)]
    rw [hfm]
  refine ⟨fun c fuel hc hfm => ⟨main c fuel hc hfm, ?_⟩, fun h0 hfm => ?_⟩
  · intro bt hbt
    rw [main c fuel hc hfm] at hbt
    cases hbt
  · have hp : partition pats doc = .error (.unmatchedRegion 0) := by
      unfold partition
      rw [main 0 doc.length h0 hfm]
    refine ⟨hp, fun bt hbt => ?_⟩
    rw [hp] at hbt
    cases hbt

/-- C6 (witness): a mode with no patterns leaves cursor 0 of the demo
document unmatched; the parse fails with `UnmatchedRegionError 0`. -/
theorem unmatched_region_failure_witness :
    partition [] demoDoc = .error (.unmatchedRegion 0) :=
  ((unmatched_region_failure demoDoc []).2 (by decide) rfl).1

/-- C7: forward progress and termination.  The scanner never exhausts its
fuel when given more fuel than remaining characters (so the partition scan,
which supplies `len + 1` fuel, always ends); a zero-length pattern match is
rejected with `InvalidPatternError`; and a successful scan emits only
non-empty blocks (inclusive span start ≤ stop) whose spans strictly advance,
with at most one block per remaining character. -/
theorem forward_progress_and_termination (doc : List Char) (pats : List PatternSpec) :
    (∀ fuel c, doc.length - c < fuel → scanFrom doc pats fuel c ≠ .error .outOfFuel)
    ∧ partition pats doc ≠ .error .outOfFuel
    ∧ (∀ c s p e fuel, c < doc.length → firstMatch pats doc c = some (s, p, e) → e ≤ p →
        scanFrom doc pats (fuel + 1) c = .error (.invalidPattern s.subName))
    ∧ (∀ fuel c bt, scanFrom doc pats fuel c = .ok bt →
        (∀ b ∈ bt, b.spanStart ≤ b.spanStop)
        ∧ List.Chain' (fun a b2 => a.spanStop < b2.spanStart) bt
        ∧ bt.length ≤ doc.length - c) := by
  refine ⟨scanFrom_fuel_sufficient doc pats, ?_, ?_, ?_⟩
  · unfold partition
    split
    · rename_i err hsc
      intro hcontra
      injection hcontra with hc
      subst hc
      exact scanFrom_fuel_sufficient doc pats (doc.length + 1) 0 (by omega) hsc
    · split
      · simp
      · simp
  · intro c s p e fuel hc hfm hzl
    simp only [scanFrom]
    rw [if_neg (by omega), hfm]
    simp [hzl]
  · intro fuel c bt h
    obtain ⟨hmem, hch, hlen⟩ := scanFrom_ok_props doc pats fuel c bt h
    exact ⟨fun b hb => (hmem b hb).2.1, hch, hlen⟩

/-- C7 (witness): a zero-length match is rejected with `InvalidPatternError`,
and the concrete demo parse emits one non-empty block for three characters. -/
theorem forward_progress_and_termination_witness :
    scanFrom demoDoc [zeroLen] 1 0 = .error (.invalidPattern "ZeroLen")
    ∧ demoBT.length ≤ demoDoc.length - 0 :=
  ⟨(forward_progress_and_termination demoDoc [zeroLen]).2.2.1 0 zeroLen 0 0 0
      (by decide) rfl (le_refl 0),
   ((forward_progress_and_termination demoDoc [wholeRest]).2.2.2
      (demoDoc.length + 1) 0 demoBT (by decide)).2.2⟩

/-- C4 (counterexample): under the claimed half-open reading of `char_span`,
the observed GPAW sample violates `start < end`: the Spacer rows have spans
(0, 0) and (110, 110), which half-open would be empty although each stands
for a non-empty blank run. -/
theorem char_span_halfopen_cex :
    (¬ ∀ r ∈ observedGpawRows, r.charStart < r.charStop)
    ∧ ∃ r ∈ observedGpawRows, r.rowSubtype = "Spacer" ∧ r.charStop - r.charStart = 0 := by
  constructor
  · intro h
    exact absurd (h ⟨"Spacer", "Spacer", 0, 0, 1, 2⟩ (by decide)) (by decide)
  · exact ⟨⟨"Spacer", "Spacer", 0, 0, 1, 2⟩, by decide, rfl, rfl⟩

/-- C4 (amended): `char_span` is the inclusive interval `[start, end]`: a
block covers the characters at offsets `start` through `end`, its backing
slice has length `end - start + 1`, and `start ≤ end`; the example document's
blank runs are reported with char spans (0, 0) and (110, 110), each covering
exactly one character, and the observed spans tile the document contiguously
with each next start equal to the previous end plus one. -/
theorem char_span_inclusive (pats : List PatternSpec) (doc : List Char)
    (bt : List Block) (h : partition pats doc = .ok bt) :
    (∀ b ∈ bt, b.spanStart ≤ b.spanStop ∧
      b.slice.length = b.spanStop + 1 - b.spanStart)
    ∧ List.Chain' (fun a b => b.charStart = a.charStop + 1) docOrderGpawRows
    ∧ (observedGpawRows.filter (fun r => r.rowSubtype == "Spacer")).map
        (fun r => (r.charStart, r.charStop)) = [(0, 0), (110, 110)]
    ∧ ∀ r ∈ observedGpawRows, r.charStop + 1 - r.charStart ≥ 1 := by
  have hck : checkPartition bt doc.length = true := by
    unfold partition at h
    split at h
    · simp at h
    · split at h
      · rename_i hc
        obtain rfl : _ = bt := by simpa using h
        exact hc
      · simp at h
  have hmem := (tilesFrom_spec doc.length bt 0 hck).1
  have hsc : scanFrom doc pats (doc.length + 1) 0 = .ok bt := by
    unfold partition at h
    split at h
    · simp at h
    · rename_i bt2 hsc
      split at h
      · obtain rfl : bt2 = bt := by simpa using h
        exact hsc
      · simp at h
  have hsl := (scanFrom_ok_props doc pats (doc.length + 1) 0 bt hsc).1
  refine ⟨?_, by simp [docOrderGpawRows, List.chain'_cons], by decide, by decide⟩
  intro b hb
  have h1 := hmem b hb
  have h2 := (hsl b hb).2.2
  refine ⟨h1.2.1, ?_⟩
  rw [h2]
  simp only [List.length_take, List.length_drop]
  omega

/-- C4 (witness): the concrete demo parse emits a block whose slice length
equals `end - start + 1`. -/
theorem char_span_inclusive_witness :
    demoBlock ∈ demoBT ∧ demoBlock.slice.length = demoBlock.spanStop + 1 - demoBlock.spanStart :=
  ⟨by decide,
   ((char_span_inclusive [wholeRest] demoDoc demoBT (by decide)).1 demoBlock (by decide)).2⟩

/-- C5: expanding a blueprint with N text variants yields exactly N concrete
patterns, one per variant in declared order, each named after its variant
key, with pattern text `beginning ++ marker ++ ending` and the blueprint's
flags; the expansion is inserted at the blueprint's position in the enclosing
group, preserving sibling order; and expansion is pure and deterministic. -/
theorem blueprint_expansion (b : BlueprintDefinition) (pre post : List SpecNode) :
    (expandBlueprint b).length = b.variants.length
    ∧ (∀ i (hi : i < b.variants.length) (hi2 : i < (expandBlueprint b).length),
        (expandBlueprint b).get ⟨i, hi2⟩ =
          ⟨"Block", (b.variants.get ⟨i, hi⟩).1,
           b.beginning ++ (b.variants.get ⟨i, hi⟩).2 ++ b.ending, b.flags⟩)
    ∧ expandNode (.group (pre ++ .blueprint b :: post)) =
        expandNode (.group pre) ++ expandBlueprint b ++ expandNode (.group post)
    ∧ ∀ b2 : BlueprintDefinition, b2 = b → expandBlueprint b2 = expandBlueprint b := by
  refine ⟨by simp [expandBlueprint], ?_, ?_, fun b2 hb2 => by rw [hb2]⟩
  · intro i hi hi2
    simp [expandBlueprint, List.get_eq_getElem]
  · rw [expandNode_group_append]
    have : expandNode (.group (SpecNode.blueprint b :: post)) =
        expandBlueprint b ++ expandNode (.group post) := by
      simp [expandNode]
    rw [this, List.append_assoc]

/-- C5 (witness): the VASP blueprint `BlueprintBlockWithSingeLineHeader` has
two variants; its first expanded pattern is named after the first variant key
with text `beginning ++ marker ++ ending`, and the expansion sits between its
siblings in `TypeKnownBlocks`. -/
theorem blueprint_expansion_witness :
    (expandBlueprint vaspBlueprint).length = 2
    ∧ (expandBlueprint vaspBlueprint).get ⟨0, by decide⟩ =
        ⟨"Block", "BlockVaspFreeEnergieOfTheIonElectronSystem",
         vaspBlueprint.beginning ++
           "FREE ENERGIE OF THE ION-ELECTRON SYSTEM \\(eV\\)" ++ vaspBlueprint.ending,
         ["MULTILINE"]⟩
    ∧ expandNode (.group
        ([.leaf blockVaspWarningDef, .leaf blockVaspGeneralTimingDef] ++
          .blueprint vaspBlueprint :: [])) =
        expandNode (.group [.leaf blockVaspWarningDef, .leaf blockVaspGeneralTimingDef]) ++
          expandBlueprint vaspBlueprint ++ expandNode (.group []) :=
  ⟨(blueprint_expansion vaspBlueprint [] []).1,
   (blueprint_expansion vaspBlueprint [] []).2.1 0 (by decide) (by decide),
   (blueprint_expansion vaspBlueprint
     [.leaf blockVaspWarningDef, .leaf blockVaspGeneralTimingDef] []).2.2.1⟩

/-- C8: requesting a mode name absent from the registry fails with
`UnknownModeError` and produces no mode (hence no BlockTable); for every
registered mode name, `load` returns that mode's root pattern group and
renderer table. -/
theorem mode_registry_load (modeName : String) :
    (registeredModes.lookup modeName = none →
      loadMode modeName = .error (.unknownMode modeName)
      ∧ ∀ m, loadMode modeName ≠ .ok m)
    ∧ (∀ m, registeredModes.lookup modeName = some m → loadMode modeName = .ok m) := by
  constructor
  · intro hnone
    unfold loadMode
    rw [hnone]
    exact ⟨rfl, fun m hm => by cases hm⟩
  · intro m hm
    unfold loadMode
    rw [hm]

/-- C8 (witness): `GPAW` is registered and loads its mode; `MOPAC` is not
registered and fails with `UnknownModeError`. -/
theorem mode_registry_load_witness :
    loadMode "GPAW" = .ok gpawMode
    ∧ loadMode "MOPAC" = .error (.unknownMode "MOPAC") :=
  ⟨(mode_registry_load "GPAW").2 gpawMode rfl,
   ((mode_registry_load "MOPAC").1 rfl).1⟩

/-- C9 (counterexample): the observed `get_blocks()` table of the example
document is not in document order: its rows' char-span starts
(1, 111, 0, 110) are not strictly increasing. -/
theorem export_rows_not_doc_order_cex :
    ¬ List.Pairwise (fun a b => a.charStart < b.charStart) observedGpawRows := by
  intro h
  simp [observedGpawRows, List.pairwise_cons] at h

/-- C9 (amended): the tabular export projects each Block into one row
`{Type, Subtype, CharPosition, LinePosition}` preserving BlockTable order;
the observed example table has exactly four rows with exactly the subtypes,
char spans and line spans of the document's four blocks, but in the observed
order (Block-typed rows before Spacer rows), a permutation of document order
rather than document order itself. -/
theorem export_rows_observed (lineOf : Nat → Nat) (bt : List Block) :
    (exportTable lineOf bt).length = bt.length
    ∧ (∀ i (hi : i < bt.length) (hi2 : i < (exportTable lineOf bt).length),
        (exportTable lineOf bt).get ⟨i, hi2⟩ = exportRow lineOf (bt.get ⟨i, hi⟩))
    ∧ observedGpawRows.length = 4
    ∧ observedGpawRows.Perm docOrderGpawRows
    ∧ observedGpawRows.map
        (fun r => (r.rowSubtype, r.charStart, r.charStop, r.lineStart, r.lineStop)) =
        [("BlockGpawIcon", 1, 109, 3, 8), ("BlockGpawDipole", 111, 166, 11, 12),
         ("Spacer", 0, 0, 1, 2), ("Spacer", 110, 110, 9, 10)] := by
  refine ⟨by simp [exportTable], ?_, by decide, by decide, by decide⟩
  intro i hi hi2
  simp [exportTable, List.get_eq_getElem]

/-- C9 (witness): the export of the demo table projects its single block into
its row, preserving order. -/
theorem export_rows_observed_witness :
    (exportTable id demoBT).get ⟨0, by decide⟩ = exportRow id demoBlock :=
  (export_rows_observed id demoBT).2.1 0 (by decide) (by decide)

/-- Sanity: on a two-newline document the VASP configuration succeeds with a
single Spacer block (the Spacer pattern `^(\s*\n)` claims both newlines). -/
theorem vasp_spacer_partition_demo :
    partition vaspSpecs "\n\n".toList =
      .ok [⟨"Spacer", "Spacer", 0, 1, "\n\n".toList⟩] := by decide

/-- C10: every match of the VASP Spacer pattern `^(\s*\n)` is a non-empty run
of whitespace characters whose last character is a newline; on the document
`"   "` (three spaces, whitespace-only but lacking a terminating newline),
the Spacer pattern does not match, no pattern of the VASP configuration
matches at cursor 0, and partitioning fails with `UnmatchedRegionError 0`
instead of emitting a Spacer block. -/
theorem spacer_requires_trailing_newline :
    (∀ (doc : List Char) (c p e : Nat), reSearch reSpacer doc c = some (p, e) →
      p < e ∧ doc.get? (e - 1) = some '\n'
      ∧ ∀ i, p ≤ i → i < e → ∃ ci, doc.get? i = some ci ∧ isPySpace ci = true)
    ∧ reSearch reSpacer "  \n".toList 0 = some (0, 3)
    ∧ reSearch reSpacer "   ".toList 0 = none
    ∧ firstMatch vaspSpecs "   ".toList 0 = none
    ∧ partition vaspSpecs "   ".toList = .error (.unmatchedRegion 0) := by
  refine ⟨?_, by decide, by decide, by rfl, by decide⟩
  intro doc c p e h
  exact reSearchAux_spacer doc (doc.length + 1 - c) c p e h

/-- C10 (witness): instantiating the only-whitespace-ending-in-newline
property at the concrete match of `"  \n"`. -/
theorem spacer_requires_trailing_newline_witness :
    (0 : Nat) < 3 ∧ ("  \n".toList).get? 2 = some '\n' :=
  ⟨(spacer_requires_trailing_newline.1 "  \n".toList 0 0 3 (by decide)).1,
   (spacer_requires_trailing_newline.1 "  \n".toList 0 0 3 (by decide)).2.1⟩

end ChemParse
